import Mathlib

/-!
Shallow embedding of the tunnel lifecycle orchestration core of the
htunnel repository: the tunnel manager (src/tunnel-manager.ts), the
provider registry (providers/index.ts), the provider stop implementations
(providers/cloudflare.ts, ngrok.ts, localtunnel.ts, pinggy.ts), the
output scanner waitForUrl (providers/base.ts), and the localtunnel
close/error event handlers (providers/localtunnel.ts).

JavaScript mutation of the shared TunnelInstance object is modelled by
explicit state passing; the manager's Map is an association list with
JS Map semantics (set on an existing key updates in place, otherwise
appends; values() iterates in insertion order).  A thrown JS value is
either an Error carrying a message or some non-Error value.
-/

namespace HTunnel

/-- A thrown JavaScript value: an `Error` with a `.message`, or any other value. -/
inductive JsErr
  | jsError (msg : String)
  | jsNonError
deriving DecidableEq, Repr

/-- `error instanceof Error ? error.message : "Unknown error"` (tunnel-manager.ts). -/
def jsErrMessage : JsErr → String
  | JsErr.jsError msg => msg
  | JsErr.jsNonError => "Unknown error"

/-- `type TunnelStatus = "starting" | "live" | "closed" | "error"` (types.ts). -/
inductive TunnelStatus
  | starting
  | live
  | closed
  | error
deriving DecidableEq, Repr

/-- `interface TunnelConfig` (types.ts).  Timestamps are naturals (ms since epoch). -/
structure TunnelConfig where
  id : String
  provider : String
  name : String
  localPort : Nat
  localHost : String
  token : Option String
  pinggyPassword : Option String
  subdomain : Option String
  createdAt : Nat
deriving DecidableEq, Repr

/-- `interface TunnelInstance` (types.ts).  The process handle and the
localtunnel `_ltInstance` session handle are modelled by presence flags;
`kill()`/`close()` act on the OS process, not on the record. -/
structure TunnelInstance where
  config : TunnelConfig
  status : TunnelStatus
  urls : List String
  error : Option String
  process : Bool
  password : Option String
  extraInfo : List (String × String)
  logs : List String
  startedAt : Option Nat
  ltSession : Bool
deriving DecidableEq, Repr

/-- `interface CreateTunnelRequest` (types.ts). -/
structure CreateTunnelRequest where
  provider : String
  name : String
  localPort : Nat
  localHost : Option String
  token : Option String
  pinggyPassword : Option String
  subdomain : Option String
deriving DecidableEq, Repr

/-- The manager's `private tunnels = new Map<string, TunnelInstance>()`. -/
abbrev ManagerState := List (String × TunnelInstance)

/-- `Map.get`. -/
def mapGet (st : ManagerState) (k : String) : Option TunnelInstance :=
  match st with
  | [] => none
  | (k', v) :: rest => if k' = k then some v else mapGet rest k

/-- `Map.set`: update in place when the key exists (preserving insertion
order), otherwise append. -/
def mapSet (st : ManagerState) (k : String) (v : TunnelInstance) : ManagerState :=
  match st with
  | [] => [(k, v)]
  | (k', v') :: rest => if k' = k then (k, v) :: rest else (k', v') :: mapSet rest k v

/-- `Map.delete` (the state change; its Boolean result is presence before). -/
def mapDelete (st : ManagerState) (k : String) : ManagerState :=
  match st with
  | [] => []
  | (k', v') :: rest => if k' = k then mapDelete rest k else (k', v') :: mapDelete rest k

/-- The character JS uses for digit `d` in `Number.prototype.toString(36)`:
`0`-`9` then `a`-`z`. -/
def base36Digit (d : Nat) : Char :=
  if d < 10 then Char.ofNat (48 + d) else Char.ofNat (87 + d)

/-- `n.toString(36)`: base-36 positional representation, most significant
digit first, and `"0"` for zero. -/
def natToBase36 (n : Nat) : String :=
  if n = 0 then "0" else String.mk (((Nat.digits 36 n).map base36Digit).reverse)

/-- `TunnelManager.generateId`:
`` `t-${Date.now().toString(36)}-${Math.random().toString(36).slice(2, 7)}` ``.
`now` is the `Date.now()` value and `rand` the random base-36 suffix drawn
by this call. -/
def generateId (now : Nat) (rand : String) : String :=
  "t-" ++ natToBase36 now ++ "-" ++ rand

/-- The keys of `providers` (providers/index.ts). -/
def registeredProviders : List String :=
  ["pinggy", "cloudflare", "ngrok", "localtunnel"]

/-- `getProvider` (providers/index.ts): look up the registry and throw
`new Error("Unknown provider: " + name)` when the key is unregistered.
The provider implementation itself is identified by its key. -/
def getProviderE (name : String) : Except JsErr String :=
  if name ∈ registeredProviders then Except.ok name
  else Except.error (JsErr.jsError ("Unknown provider: " ++ name))

/-- The behaviour of an awaited `provider.start(tunnel)` call: the mutated
instance together with the thrown value, if the call rejected. -/
abbrev StartSem := String → TunnelInstance → TunnelInstance × Option JsErr

/-- The behaviour of an awaited `provider.stop(tunnel)` call. -/
abbrev StopSem := String → TunnelInstance → TunnelInstance × Option JsErr

/-- The synchronous part of `TunnelManager.create` up to and including
`this.tunnels.set(id, tunnel)` — everything that runs before the provider's
`start()` is awaited.  Returns the state visible to other tasks during the
asynchronous start, the fresh id, and the inserted instance. -/
def createInsert (now : Nat) (rand : String) (request : CreateTunnelRequest)
    (st : ManagerState) : ManagerState × String × TunnelInstance :=
  let id := generateId now rand
  let config : TunnelConfig :=
    { id := id
      provider := request.provider
      name := if request.name = "" then "Unnamed" else request.name
      localPort := request.localPort
      localHost :=
        match request.localHost with
        | some h => if h = "" then "localhost" else h
        | none => "localhost"
      token := request.token
      pinggyPassword := request.pinggyPassword
      subdomain := request.subdomain
      createdAt := now }
  let tunnel : TunnelInstance :=
    { config := config
      status := TunnelStatus.starting
      urls := []
      error := none
      process := false
      password := none
      extraInfo := []
      logs := []
      startedAt := some now
      ltSession := false }
  (mapSet st id tunnel, id, tunnel)

/-- The `try { getProvider(...); await provider.start(tunnel) } catch ...`
tail of `TunnelManager.create`.  The catch clause forces `status = "error"`
and records the message; the mutated object is the one stored in the map. -/
def createAfterInsert (startSem : StartSem) (request : CreateTunnelRequest)
    (inserted : ManagerState × String × TunnelInstance) :
    Except JsErr (ManagerState × TunnelInstance) :=
  let st₁ := inserted.1
  let id := inserted.2.1
  let tunnel := inserted.2.2
  match getProviderE request.provider with
  | Except.error e =>
      let t₂ := { tunnel with status := TunnelStatus.error, error := some (jsErrMessage e) }
      Except.ok (mapSet st₁ id t₂, t₂)
  | Except.ok pname =>
      match startSem pname tunnel with
      | (t', none) => Except.ok (mapSet st₁ id t', t')
      | (t', some e) =>
          let t₂ := { t' with status := TunnelStatus.error, error := some (jsErrMessage e) }
          Except.ok (mapSet st₁ id t₂, t₂)

/-- `TunnelManager.create` (tunnel-manager.ts).  An `Except.error` result
would model a rejected promise; the body never produces one. -/
def createE (startSem : StartSem) (now : Nat) (rand : String)
    (request : CreateTunnelRequest) (st : ManagerState) :
    Except JsErr (ManagerState × TunnelInstance) :=
  createAfterInsert startSem request (createInsert now rand request st)

/-- The body of `TunnelManager.stop` acting on the instance it looked up:
`try { getProvider; await provider.stop(tunnel); return true } catch { return false }`.
A throw after mutation leaves the mutation on the shared object. -/
def stopOn (stopSem : StopSem) (t : TunnelInstance) : TunnelInstance × Bool :=
  match getProviderE t.config.provider with
  | Except.error _ => (t, false)
  | Except.ok pname =>
      match stopSem pname t with
      | (t', none) => (t', true)
      | (t', some _) => (t', false)

/-- `TunnelManager.stop` (tunnel-manager.ts). -/
def stopM (stopSem : StopSem) (st : ManagerState) (id : String) : ManagerState × Bool :=
  match mapGet st id with
  | none => (st, false)
  | some tunnel =>
      let r := stopOn stopSem tunnel
      (mapSet st id r.1, r.2)

/-- The instance as it stands when `restart` hands it back to the provider:
after `await this.stop(id)` and the resets
`tunnel.status = "starting"; tunnel.urls = []; tunnel.error = undefined`. -/
def restartReset (stopSem : StopSem) (t : TunnelInstance) : TunnelInstance :=
  let t₁ := (stopOn stopSem t).1
  { t₁ with status := TunnelStatus.starting, urls := [], error := none }

/-- `TunnelManager.restart` (tunnel-manager.ts).  The body catches every
throw of the provider's `start()`, exactly as `create` does. -/
def restartE (startSem : StartSem) (stopSem : StopSem) (st : ManagerState)
    (id : String) : ManagerState × Option TunnelInstance :=
  match mapGet st id with
  | none => (st, none)
  | some tunnel =>
      let t₂ := restartReset stopSem tunnel
      let t₃ :=
        match getProviderE t₂.config.provider with
        | Except.error e =>
            { t₂ with status := TunnelStatus.error, error := some (jsErrMessage e) }
        | Except.ok pname =>
            match startSem pname t₂ with
            | (t', none) => t'
            | (t', some e) =>
                { t' with status := TunnelStatus.error, error := some (jsErrMessage e) }
      (mapSet st id t₃, some t₃)

/-- `TunnelManager.delete` (tunnel-manager.ts): `this.stop(id)` is invoked
without `await` — only its synchronous part runs — and the record is removed
and the Boolean returned without waiting for the provider's stop. -/
def deleteT (stopSem : StopSem) (st : ManagerState) (id : String) :
    ManagerState × Bool :=
  match mapGet st id with
  | none => (st, false)
  | some _ =>
      let st₁ := (stopM stopSem st id).1
      (mapDelete st₁ id, true)

/-- `TunnelManager.get`. -/
def getT (st : ManagerState) (id : String) : Option TunnelInstance :=
  mapGet st id

/-- `TunnelManager.getAll`: `Array.from(this.tunnels.values())`. -/
def getAllT (st : ManagerState) : List TunnelInstance :=
  st.map Prod.snd

/-- The four provider implementations (providers/index.ts registry values). -/
inductive ProviderId
  | pinggy
  | cloudflare
  | ngrok
  | localtunnel
deriving DecidableEq, Repr

/-- `cloudflareProvider.stop` (providers/cloudflare.ts):
push "Stopping tunnel...", `tunnel.process?.kill()`, set status closed,
push "Tunnel stopped".  Bun's no-argument `kill()` is a no-op on an
already-exited process and does not throw, so nothing escapes even though
this body has no try/catch; the kill acts on the OS process only, not on
the record.  The second component is the value thrown to the caller. -/
def cloudflareStop (t : TunnelInstance) : TunnelInstance × Option JsErr :=
  let t₁ := { t with logs := t.logs ++ ["Stopping tunnel..."] }
  let t₂ := { t₁ with status := TunnelStatus.closed }
  ({ t₂ with logs := t₂.logs ++ ["Tunnel stopped"] }, none)

/-- `ngrokProvider.stop` (providers/ngrok.ts): the kill attempt sits in
`try { ... } catch { /* ignore */ }`, so whether or not the attempt throws
(`teardownThrows`), status is set to closed and the stopped line appended,
and nothing is thrown to the caller. -/
def ngrokStop (teardownThrows : Bool) (t : TunnelInstance) : TunnelInstance × Option JsErr :=
  let t₁ := { t with logs := t.logs ++ ["Stopping tunnel..."] }
  let caught : Option JsErr := if teardownThrows then some JsErr.jsNonError else none
  let _ := caught
  let t₂ := { t₁ with status := TunnelStatus.closed }
  ({ t₂ with logs := t₂.logs ++ ["Tunnel stopped"] }, none)

/-- `localtunnelProvider.stop` (providers/localtunnel.ts): closes the
`_ltInstance` session if present inside `try { ... } catch { /* ignore errors */ }`,
then unconditionally sets status closed and appends the stopped line. -/
def localtunnelStop (teardownThrows : Bool) (t : TunnelInstance) : TunnelInstance × Option JsErr :=
  let t₁ := { t with logs := t.logs ++ ["Stopping tunnel..."] }
  let caught : Option JsErr :=
    if t₁.ltSession ∧ teardownThrows then some JsErr.jsNonError else none
  let _ := caught
  let t₂ := { t₁ with status := TunnelStatus.closed }
  ({ t₂ with logs := t₂.logs ++ ["Tunnel stopped"] }, none)

/-- `pinggyProvider.stop` (providers/pinggy.ts): awaits the SDK session's
`stop()` and kills the process inside `try { ... } catch { /* ignore errors */ }`,
then unconditionally sets status closed and appends the stopped line. -/
def pinggyStop (teardownThrows : Bool) (t : TunnelInstance) : TunnelInstance × Option JsErr :=
  let t₁ := { t with logs := t.logs ++ ["Stopping tunnel..."] }
  let caught : Option JsErr := if teardownThrows then some JsErr.jsNonError else none
  let _ := caught
  let t₂ := { t₁ with status := TunnelStatus.closed }
  ({ t₂ with logs := t₂.logs ++ ["Tunnel stopped"] }, none)

/-- Dispatch a `stop(instance)` call to the named provider implementation.
`teardownThrows` says whether the underlying teardown primitive would throw. -/
def providerStop (p : ProviderId) (teardownThrows : Bool) (t : TunnelInstance) :
    TunnelInstance × Option JsErr :=
  match p with
  | ProviderId.pinggy => pinggyStop teardownThrows t
  | ProviderId.cloudflare => cloudflareStop t
  | ProviderId.ngrok => ngrokStop teardownThrows t
  | ProviderId.localtunnel => localtunnelStop teardownThrows t

/-- The `lt.on("close", ...)` handler registered by `localtunnelProvider.start`:
if the tunnel is still live, mark it closed by the server. -/
def ltCloseHandler (t : TunnelInstance) : TunnelInstance :=
  if t.status = TunnelStatus.live then
    { t with status := TunnelStatus.closed, logs := t.logs ++ ["Tunnel closed by server"] }
  else t

/-- The `lt.on("error", ...)` handler registered by `localtunnelProvider.start`. -/
def ltErrorHandler (msg : String) (t : TunnelInstance) : TunnelInstance :=
  { t with status := TunnelStatus.error, error := some msg,
           logs := t.logs ++ ["ERROR: " ++ msg] }

/-- An asynchronous event fired by the localtunnel session after start. -/
inductive LtEvent
  | serverClose
  | serverError (msg : String)
deriving DecidableEq, Repr

/-- Run the registered handler for one server event. -/
def applyLtEvent (t : TunnelInstance) (e : LtEvent) : TunnelInstance :=
  match e with
  | LtEvent.serverClose => ltCloseHandler t
  | LtEvent.serverError msg => ltErrorHandler msg t

/-- What the awaited `localtunnel(options)` call did: produced a session
with a url, or threw. -/
inductive StartOutcome
  | success (url : String)
  | failure (msg : String)
deriving DecidableEq, Repr

/-- `localtunnelProvider.start` (providers/localtunnel.ts), with the
external call's outcome as a parameter: on success it stores the session,
sets urls and status live and registers the close/error handlers; on
failure the catch clause sets status error, logs the error and rethrows. -/
def ltStart (outcome : StartOutcome) (t : TunnelInstance) : TunnelInstance × Option JsErr :=
  let cmd := "$ localtunnel --port " ++ toString t.config.localPort ++
    (match t.config.subdomain with
     | some s => " --subdomain " ++ s
     | none => "")
  let t₀ := { t with logs := t.logs ++
    [cmd, "Starting localtunnel...", "Connecting to loca.lt server..."] }
  match outcome with
  | StartOutcome.success url =>
      ({ t₀ with ltSession := true, urls := [url], status := TunnelStatus.live,
                 logs := t₀.logs ++ ["Tunnel established!", "URL: " ++ url] }, none)
  | StartOutcome.failure msg =>
      ({ t₀ with status := TunnelStatus.error,
                 logs := t₀.logs ++ ["ERROR: " ++ msg] }, some (JsErr.jsError msg))

/-- One lifecycle segment of a localtunnel instance after `create`/`restart`
and before the next `stop`/`restart`: the provider's `start` runs (through
the manager's catch), and then the server events fire.  Handlers exist only
when `start` succeeded; on the failure path none were registered, so later
events cannot touch the record. -/
def ltSegment (outcome : StartOutcome) (events : List LtEvent) (t : TunnelInstance) :
    TunnelInstance :=
  match ltStart outcome t with
  | (t', none) => events.foldl applyLtEvent t'
  | (t', some e) =>
      { t' with status := TunnelStatus.error, error := some (jsErrMessage e) }

/-- A rank on statuses: `starting` strictly before `live`, which is strictly
before the terminal statuses. -/
def statusRank : TunnelStatus → Nat
  | TunnelStatus.starting => 0
  | TunnelStatus.live => 1
  | TunnelStatus.error => 2
  | TunnelStatus.closed => 2

/-- A pattern handed to the scanner, modelling a JS `RegExp` through its
`buffer.match(pattern)` behaviour: `some m` is a hit whose first entry
(`match[0]`) is `m`, `none` a miss. -/
abbrev Pat := String → Option String

/-- The `for (const pattern of patterns) { const match = buffer.match(pattern); ... }`
loop of `waitForUrl`: the matched substring of the first pattern in list
order that matches the buffer. -/
def firstMatch : List Pat → String → Option String
  | [], _ => none
  | p :: rest, buffer =>
      match p buffer with
      | some m => some m
      | none => firstMatch rest buffer

/-- One observable step of the subprocess output stream: a decoded chunk
arriving at `time` (ms after `waitForUrl` was invoked), or EOF at `time`.
A list of events that ends without an `eof` models a stream that stays
silent forever afterwards. -/
inductive StreamEvent
  | chunk (time : Nat) (payload : String)
  | eof (time : Nat)
deriving DecidableEq, Repr

/-- How the `waitForUrl` promise settled, with the settle time. -/
inductive ScanOutcome
  | found (url : String) (time : Nat)
  | streamEnded (time : Nat)
  | timedOut (time : Nat)
deriving DecidableEq, Repr

/-- The `setTimeout` handle: still pending (leaked), cancelled by
`clearTimeout`, or fired. -/
inductive TimerState
  | pending
  | cleared
  | fired
deriving DecidableEq, Repr

/-- The settled promise together with the final state of the timeout timer. -/
structure ScanResult where
  outcome : ScanOutcome
  timer : TimerState
deriving DecidableEq, Repr

/-- The read loop of `waitForUrl` (providers/base.ts): accumulate decoded
chunks into `buffer`, after each read check the patterns in order against
the whole buffer, resolve with the first hit; reject with the stream-ended
error at EOF; the `setTimeout(timeoutMs)` timer wins against any event that
has not been handled strictly before `timeoutMs` and rejects with the
timeout error; `clearTimeout` runs on every terminal path of the loop. -/
def scanLoop (patterns : List Pat) (timeoutMs : Nat) :
    List StreamEvent → String → ScanResult
  | [], _ =>
      ⟨ScanOutcome.timedOut timeoutMs, TimerState.fired⟩
  | StreamEvent.eof t :: _, _ =>
      if timeoutMs ≤ t then ⟨ScanOutcome.timedOut timeoutMs, TimerState.fired⟩
      else ⟨ScanOutcome.streamEnded t, TimerState.cleared⟩
  | StreamEvent.chunk t s :: rest, buffer =>
      if timeoutMs ≤ t then ⟨ScanOutcome.timedOut timeoutMs, TimerState.fired⟩
      else
        let buffer' := buffer ++ s
        match firstMatch patterns buffer' with
        | some m => ⟨ScanOutcome.found m t, TimerState.cleared⟩
        | none => scanLoop patterns timeoutMs rest buffer'

/-- `waitForUrl(stream, patterns, timeoutMs)` on a stream whose observable
behaviour is `events`. -/
def waitForUrl (patterns : List Pat) (timeoutMs : Nat) (events : List StreamEvent) :
    ScanResult :=
  scanLoop patterns timeoutMs events ""

/-- The declared default of the `timeoutMs` parameter of `waitForUrl`. -/
def defaultTimeoutMs : Nat := 30000

/-- `waitForUrl` invoked without an explicit timeout. -/
def waitForUrlD (patterns : List Pat) (events : List StreamEvent) : ScanResult :=
  waitForUrl patterns defaultTimeoutMs events

/-- The text accumulated from the chunks of an event list. -/
def bufOf : List StreamEvent → String
  | [] => ""
  | StreamEvent.chunk _ s :: rest => s ++ bufOf rest
  | StreamEvent.eof _ :: rest => bufOf rest

/-- A provider `start` that resolves without touching the record. -/
def noopStart : StartSem := fun _ t => (t, none)

/-- A create request naming a provider that is not in the registry. -/
def bogusRequest : CreateTunnelRequest :=
  { provider := "serveo", name := "demo", localPort := 3000,
    localHost := none, token := none, pinggyPassword := none, subdomain := none }

/-- A create request for the cloudflare provider, used at concrete inputs. -/
def demoRequest : CreateTunnelRequest :=
  { provider := "cloudflare", name := "demo", localPort := 3000,
    localHost := none, token := none, pinggyPassword := none, subdomain := none }

/-- `create(bogusRequest)` on an empty manager, at time 0 with random
suffix `"aaaaa"`. -/
def cexCreate : Except JsErr (ManagerState × TunnelInstance) :=
  createE noopStart 0 "aaaaa" bogusRequest []

/-- A provider `start` that rejects with `new Error("")` — an Error whose
`.message` is the empty string. -/
def emptyMsgStart : StartSem := fun _ t => (t, some (JsErr.jsError ""))

/-- `create(demoRequest)` against the provider start that throws
`Error("")`, on an empty manager. -/
def c1cex : Except JsErr (ManagerState × TunnelInstance) :=
  createE emptyMsgStart 0 "aaaaa" demoRequest []

/-- The payload of a fulfilled `create` promise, `none` for a rejection. -/
def exceptOk? : Except JsErr (ManagerState × TunnelInstance) →
    Option (ManagerState × TunnelInstance)
  | Except.ok x => some x
  | Except.error _ => none

/-- A concrete localtunnel instance fresh out of `createInsert`. -/
def demoStarting : TunnelInstance :=
  { config :=
      { id := "t-0-aaaaa", provider := "localtunnel", name := "demo",
        localPort := 3000, localHost := "localhost", token := none,
        pinggyPassword := none, subdomain := none, createdAt := 0 }
    status := TunnelStatus.starting
    urls := []
    error := none
    process := false
    password := none
    extraInfo := []
    logs := []
    startedAt := some 0
    ltSession := false }

/-- A pattern that hits exactly when the accumulated buffer equals the
given text, reporting that text as the matched substring. -/
def eqPat (text : String) : Pat :=
  fun buffer => if buffer = text then some text else none

/-- A provider `stop` semantics behaving as `cloudflareProvider.stop`. -/
def demoStopSem : StopSem := fun _ t => cloudflareStop t

/-- A provider `start` that succeeds, setting one url and appending a log. -/
def demoStartSemOk : StartSem := fun _ t =>
  ({ t with status := TunnelStatus.live,
            urls := ["https://demo.trycloudflare.com"],
            logs := t.logs ++ ["URL: https://demo.trycloudflare.com"] }, none)

/-- A one-tunnel manager state holding `demoStarting` (with provider
`localtunnel`, a registered key) under its id. -/
def demoState : ManagerState := [("t-0-aaaaa", demoStarting)]

/-- First of two `create` calls performed in the same millisecond
(`Date.now() = 0`) with the same random draw `"zz"`. -/
def c9first : Except JsErr (ManagerState × TunnelInstance) :=
  createE noopStart 0 "zz" demoRequest []

/-- The second `create` call, issued on the state the first one left. -/
def c9second : Except JsErr (ManagerState × TunnelInstance) :=
  match c9first with
  | Except.ok (st, _) => createE noopStart 0 "zz" demoRequest st
  | Except.error e => Except.error e

theorem mapGet_nil (k : String) : mapGet [] k = none := rfl

theorem mapGet_cons (k' : String) (v' : TunnelInstance) (rest : ManagerState) (k : String) :
    mapGet ((k', v') :: rest) k = if k' = k then some v' else mapGet rest k := rfl

theorem mapGet_eq_none_iff (st : ManagerState) (k : String) :
    mapGet st k = none ↔ ∀ kv ∈ st, kv.1 ≠ k := by
  induction st with
  | nil => simp [mapGet]
  | cons kv rest ih =>
      obtain ⟨k', v'⟩ := kv
      by_cases h : k' = k
      · simp [mapGet_cons, h]
      · simp [mapGet_cons, h, ih]

theorem mapGet_mapSet_self (st : ManagerState) (k : String) (v : TunnelInstance) :
    mapGet (mapSet st k v) k = some v := by
  induction st with
  | nil => simp [mapSet, mapGet_cons]
  | cons kv rest ih =>
      obtain ⟨k', v'⟩ := kv
      by_cases h : k' = k
      · simp [mapSet, h, mapGet_cons]
      · simp [mapSet, h, mapGet_cons, ih]

theorem mapGet_some_mem (st : ManagerState) (k : String) (v : TunnelInstance)
    (h : mapGet st k = some v) : (k, v) ∈ st := by
  induction st with
  | nil => simp [mapGet] at h
  | cons kv rest ih =>
      obtain ⟨k', v'⟩ := kv
      by_cases hk : k' = k
      · rw [mapGet_cons, if_pos hk] at h
        cases h
        subst hk
        exact List.mem_cons_self _ _
      · rw [mapGet_cons, if_neg hk] at h
        exact List.mem_cons_of_mem _ (ih h)

theorem mapDelete_mapSet (st : ManagerState) (k : String) (v : TunnelInstance) :
    mapDelete (mapSet st k v) k = mapDelete st k := by
  induction st with
  | nil => simp [mapSet, mapDelete]
  | cons kv rest ih =>
      obtain ⟨k', v'⟩ := kv
      by_cases h : k' = k
      · simp [mapSet, h, mapDelete]
      · simp [mapSet, h, mapDelete, ih]

theorem mapGet_mapDelete (st : ManagerState) (k : String) :
    mapGet (mapDelete st k) k = none := by
  induction st with
  | nil => rfl
  | cons kv rest ih =>
      obtain ⟨k', v'⟩ := kv
      by_cases h : k' = k
      · simpa [mapDelete, h] using ih
      · simpa [mapDelete, h, mapGet_cons] using ih

theorem mapDelete_keys (st : ManagerState) (k : String) :
    ∀ kv ∈ mapDelete st k, kv.1 ≠ k := by
  induction st with
  | nil => intro kv hkv; simp [mapDelete] at hkv
  | cons kv rest ih =>
      obtain ⟨k', v'⟩ := kv
      by_cases h : k' = k
      · simpa [mapDelete, h] using ih
      · intro kv' hkv'
        rw [mapDelete] at hkv'
        rw [if_neg h] at hkv'
        rcases List.mem_cons.mp hkv' with rfl | hmem
        · exact h
        · exact ih kv' hmem

/-- C3: for every provider implementation and every TunnelInstance —
whatever the teardown primitive does, with or without a live handle, and
also on a second stop in a row — `stop(instance)` throws nothing to its
caller, unconditionally sets status to `closed`, and appends the
"Stopping tunnel..." / "Tunnel stopped" log lines. -/
theorem provider_stop_contract (p : ProviderId) (teardownThrows : Bool)
    (t : TunnelInstance) :
    (providerStop p teardownThrows t).2 = none ∧
    (providerStop p teardownThrows t).1.status = TunnelStatus.closed ∧
    (providerStop p teardownThrows t).1.logs =
      t.logs ++ ["Stopping tunnel...", "Tunnel stopped"] ∧
    (providerStop p teardownThrows ((providerStop p teardownThrows t).1)).2 = none ∧
    (providerStop p teardownThrows ((providerStop p teardownThrows t).1)).1.status =
      TunnelStatus.closed := by
  cases p <;>
    simp [providerStop, pinggyStop, cloudflareStop, ngrokStop, localtunnelStop]

/-- C10: `delete(id)` removes the record synchronously without awaiting
the provider's stop — it returns `true` exactly when a record existed,
`get(id)` is `undefined` immediately afterwards, no entry keyed `id`
survives in the collection, and the result does not depend on what the
(fire-and-forget) provider stop does. -/
theorem delete_sync_removal (stopSem stopSem' : StopSem) (st : ManagerState)
    (id : String) :
    (deleteT stopSem st id).2 = (getT st id).isSome ∧
    getT (deleteT stopSem st id).1 id = none ∧
    (∀ kv ∈ (deleteT stopSem st id).1, kv.1 ≠ id) ∧
    deleteT stopSem st id = deleteT stopSem' st id := by
  unfold deleteT getT stopM
  cases hg : mapGet st id with
  | none =>
      refine ⟨rfl, hg, ?_, rfl⟩
      exact (mapGet_eq_none_iff st id).mp hg
  | some t =>
      simp only [mapDelete_mapSet]
      exact ⟨rfl, mapGet_mapDelete st id, mapDelete_keys st id, trivial⟩

/-- Witness for C10 at a concrete input: deleting the one known tunnel. -/
theorem delete_sync_removal_witness :
    (deleteT demoStopSem demoState "t-0-aaaaa").2 =
      (getT demoState "t-0-aaaaa").isSome ∧
    getT (deleteT demoStopSem demoState "t-0-aaaaa").1 "t-0-aaaaa" = none ∧
    (∀ kv ∈ (deleteT demoStopSem demoState "t-0-aaaaa").1, kv.1 ≠ "t-0-aaaaa") ∧
    deleteT demoStopSem demoState "t-0-aaaaa" =
      deleteT (fun _ t => (t, none)) demoState "t-0-aaaaa" :=
  delete_sync_removal demoStopSem (fun _ t => (t, none)) demoState "t-0-aaaaa"

/-- C7: within `create(request)`, the new instance — status `starting`,
empty urls and logs, fresh id, start timestamp set, name defaulted to
"Unnamed" and host to "localhost" when unset — is inserted into the
collection by the synchronous part of `create`, before the provider's
`start()` is awaited: `get(id)`/`getAll()` on the intermediate state
already observe it, `create` is exactly that synchronous part followed by
the provider call, and the record keyed `id` is still there (as the
possibly mutated instance `create` returns) afterwards. -/
theorem create_insert_before_start (startSem : StartSem) (now : Nat) (rand : String)
    (request : CreateTunnelRequest) (st : ManagerState) :
    mapGet (createInsert now rand request st).1 (createInsert now rand request st).2.1 =
      some (createInsert now rand request st).2.2 ∧
    (createInsert now rand request st).2.2 ∈ getAllT (createInsert now rand request st).1 ∧
    (createInsert now rand request st).2.2.status = TunnelStatus.starting ∧
    (createInsert now rand request st).2.2.urls = [] ∧
    (createInsert now rand request st).2.2.logs = [] ∧
    (createInsert now rand request st).2.2.startedAt = some now ∧
    (createInsert now rand request st).2.1 = generateId now rand ∧
    (createInsert now rand request st).2.2.config.id = generateId now rand ∧
    (createInsert now rand request st).2.2.config.name =
      (if request.name = "" then "Unnamed" else request.name) ∧
    (createInsert now rand request st).2.2.config.localHost =
      (match request.localHost with
       | some h => if h = "" then "localhost" else h
       | none => "localhost") ∧
    createE startSem now rand request st =
      createAfterInsert startSem request (createInsert now rand request st) ∧
    (∃ st' t', createE startSem now rand request st = Except.ok (st', t') ∧
      mapGet st' (createInsert now rand request st).2.1 = some t') := by
  refine ⟨mapGet_mapSet_self _ _ _, ?_, rfl, rfl, rfl, rfl, rfl, rfl, rfl, rfl, rfl, ?_⟩
  · have hmem := mapGet_some_mem _ _ _
      (mapGet_mapSet_self st (generateId now rand) (createInsert now rand request st).2.2)
    exact List.mem_map.mpr ⟨_, hmem, rfl⟩
  · unfold createE createAfterInsert
    dsimp only
    cases hp : getProviderE request.provider with
    | error e => exact ⟨_, _, rfl, mapGet_mapSet_self _ _ _⟩
    | ok pname =>
        dsimp only
        cases hs : startSem pname (createInsert now rand request st).2.2 with
        | mk t' thrown =>
            cases thrown with
            | none => exact ⟨_, _, rfl, mapGet_mapSet_self _ _ _⟩
            | some e => exact ⟨_, _, rfl, mapGet_mapSet_self _ _ _⟩

/-- C1 (counterexample): a provider `start` that rejects with
`new Error("")` — a throw the claim quantifies over — is contained by
`create` (the promise fulfils, status `error`), but the message recorded
on the instance is the empty string, refuting the claim's "non-empty
error message recorded". -/
theorem create_empty_message_cex :
    (exceptOk? c1cex).isSome = true ∧
    (exceptOk? c1cex).map (fun r => r.2.status) = some TunnelStatus.error ∧
    (exceptOk? c1cex).map (fun r => r.2.error) = some (some "") :=
  ⟨rfl, rfl, rfl⟩

/-- C1 (amended): whenever the provider's `start()` throws, `create` still
returns the instance — never a rejected promise — with status `error` and
the thrown value's message recorded: an Error's `.message` verbatim, and
the fixed non-empty "Unknown error" for a non-Error throw.  The recorded
message is therefore non-empty exactly when the thrown Error's own message
is; `Error("")` is recorded as the empty string. -/
theorem create_error_containment (startSem : StartSem) (now : Nat) (rand : String)
    (request : CreateTunnelRequest) (st : ManagerState) (t' : TunnelInstance) (e : JsErr)
    (hreg : request.provider ∈ registeredProviders)
    (hthrow : startSem request.provider (createInsert now rand request st).2.2 = (t', some e)) :
    ∃ st' t₂, createE startSem now rand request st = Except.ok (st', t₂) ∧
      t₂.status = TunnelStatus.error ∧
      t₂.error = some (jsErrMessage e) ∧
      (∀ msg, e = JsErr.jsError msg → t₂.error = some msg) ∧
      (e = JsErr.jsNonError → t₂.error = some "Unknown error") ∧
      (jsErrMessage e ≠ "" → ∃ m, t₂.error = some m ∧ m ≠ "") := by
  unfold createE createAfterInsert getProviderE
  rw [if_pos hreg]
  dsimp only
  rw [hthrow]
  refine ⟨_, _, rfl, rfl, rfl, ?_, ?_, ?_⟩
  · intro msg hmsg
    rw [hmsg]
    rfl
  · intro hne
    rw [hne]
    rfl
  · intro hne
    exact ⟨jsErrMessage e, rfl, hne⟩

/-- Witness for the amended C1 at a concrete input: a registered provider
whose start throws `Error("boom")`. -/
theorem create_error_containment_witness :
    ∃ st' t₂, createE (fun _ t => (t, some (JsErr.jsError "boom"))) 0 "aaaaa"
        demoRequest [] = Except.ok (st', t₂) ∧
      t₂.status = TunnelStatus.error ∧
      t₂.error = some (jsErrMessage (JsErr.jsError "boom")) ∧
      (∀ msg, JsErr.jsError "boom" = JsErr.jsError msg → t₂.error = some msg) ∧
      (JsErr.jsError "boom" = JsErr.jsNonError → t₂.error = some "Unknown error") ∧
      (jsErrMessage (JsErr.jsError "boom") ≠ "" → ∃ m, t₂.error = some m ∧ m ≠ "") :=
  create_error_containment (fun _ t => (t, some (JsErr.jsError "boom"))) 0 "aaaaa"
    demoRequest [] _ (JsErr.jsError "boom") (by decide) rfl

/-- C2 (counterexample): `create` with the unregistered provider key
`"serveo"` does NOT let the `UnknownProvider` error escape — the promise
fulfils (with the instance marked status `error` and the
"Unknown provider: serveo" message), refuting the claim that the registry
lookup failure propagates out of `create()` as a thrown error. -/
theorem create_unknown_provider_cex :
    (exceptOk? cexCreate).isSome = true ∧
    (exceptOk? cexCreate).map (fun r => r.2.status) = some TunnelStatus.error ∧
    (exceptOk? cexCreate).map (fun r => r.2.error) =
      some (some "Unknown provider: serveo") := by
  exact ⟨rfl, rfl, rfl⟩

/-- C2 (amended): for every `create` whose provider key is unregistered,
the registry lookup throws `UnknownProvider` inside `create`'s try block,
and `create` catches it like any provider failure: it fulfils with the
instance, status `error`, and the "Unknown provider: ..." message. -/
theorem create_unknown_provider_contained (startSem : StartSem) (now : Nat)
    (rand : String) (request : CreateTunnelRequest) (st : ManagerState)
    (h : request.provider ∉ registeredProviders) :
    ∃ st' t₂, createE startSem now rand request st = Except.ok (st', t₂) ∧
      t₂.status = TunnelStatus.error ∧
      t₂.error = some ("Unknown provider: " ++ request.provider) := by
  unfold createE createAfterInsert getProviderE
  rw [if_neg h]
  exact ⟨_, _, rfl, rfl, rfl⟩

/-- Witness for the amended C2 at a concrete input. -/
theorem create_unknown_provider_contained_witness :
    ∃ st' t₂, createE noopStart 0 "aaaaa" bogusRequest [] = Except.ok (st', t₂) ∧
      t₂.status = TunnelStatus.error ∧
      t₂.error = some ("Unknown provider: " ++ bogusRequest.provider) :=
  create_unknown_provider_contained noopStart 0 "aaaaa" bogusRequest [] (by decide)

theorem getProviderE_ok_eq {name pname : String}
    (h : getProviderE name = Except.ok pname) : pname = name := by
  unfold getProviderE at h
  by_cases hm : name ∈ registeredProviders
  · rw [if_pos hm] at h
    cases h
    rfl
  · rw [if_neg hm] at h
    cases h

theorem restartReset_props (stopSem : StopSem) (t₀ : TunnelInstance)
    (hstop : ∀ pname t, (stopSem pname t).1.config = t.config ∧
      ∃ ls, (stopSem pname t).1.logs = t.logs ++ ls) :
    (restartReset stopSem t₀).config = t₀.config ∧
    (∃ ls, (restartReset stopSem t₀).logs = t₀.logs ++ ls) ∧
    (restartReset stopSem t₀).status = TunnelStatus.starting ∧
    (restartReset stopSem t₀).urls = [] ∧
    (restartReset stopSem t₀).error = none := by
  unfold restartReset stopOn
  cases hp : getProviderE t₀.config.provider with
  | error e =>
      exact ⟨rfl, ⟨[], by simp⟩, rfl, rfl, rfl⟩
  | ok pname =>
      dsimp only
      obtain ⟨hcfg, ls, hlogs⟩ := hstop pname t₀
      cases hs : stopSem pname t₀ with
      | mk t₁ thrown =>
          rw [hs] at hcfg hlogs
          cases thrown with
          | none => exact ⟨hcfg, ⟨ls, hlogs⟩, rfl, rfl, rfl⟩
          | some e => exact ⟨hcfg, ⟨ls, hlogs⟩, rfl, rfl, rfl⟩

/-- C8: for a known id, `restart(id)` stops the tunnel, then resets status
to `starting` and clears urls and error (the `restartReset` state handed to
the provider), re-invokes the provider's `start()` with the same error
containment as `create()`, and leaves id and config unchanged with the
existing log history intact — new lines are only appended. -/
theorem restart_frame (startSem : StartSem) (stopSem : StopSem) (st : ManagerState)
    (id : String) (t₀ : TunnelInstance)
    (hget : mapGet st id = some t₀)
    (hstop : ∀ pname t, (stopSem pname t).1.config = t.config ∧
      ∃ ls, (stopSem pname t).1.logs = t.logs ++ ls)
    (hstart : ∀ pname t, (startSem pname t).1.config = t.config ∧
      ∃ ls, (startSem pname t).1.logs = t.logs ++ ls) :
    (∃ t', (restartE startSem stopSem st id).2 = some t' ∧
      (restartE startSem stopSem st id).1 = mapSet st id t' ∧
      t'.config = t₀.config ∧
      (∃ ls, t'.logs = t₀.logs ++ ls)) ∧
    (restartReset stopSem t₀).status = TunnelStatus.starting ∧
    (restartReset stopSem t₀).urls = [] ∧
    (restartReset stopSem t₀).error = none ∧
    (t₀.config.provider ∈ registeredProviders →
      ∀ t'' e, startSem t₀.config.provider (restartReset stopSem t₀) = (t'', some e) →
        (restartE startSem stopSem st id).2 =
          some { t'' with status := TunnelStatus.error, error := some (jsErrMessage e) }) := by
  obtain ⟨hcfg, ⟨ls₁, hlogs₁⟩, hrs, hru, hre⟩ := restartReset_props stopSem t₀ hstop
  unfold restartE
  rw [hget]
  dsimp only
  cases hp : getProviderE (restartReset stopSem t₀).config.provider with
  | error e =>
      refine ⟨⟨_, rfl, rfl, by simpa using hcfg, ⟨ls₁, by simpa using hlogs₁⟩⟩,
        hrs, hru, hre, ?_⟩
      intro hreg t'' e' _
      rw [hcfg] at hp
      unfold getProviderE at hp
      rw [if_pos hreg] at hp
      cases hp
  | ok pname =>
      dsimp only
      have hpn : pname = t₀.config.provider := by
        have := getProviderE_ok_eq hp
        rw [hcfg] at this
        exact this
      obtain ⟨hcfg', ls₂, hlogs₂⟩ := hstart pname (restartReset stopSem t₀)
      cases hs : startSem pname (restartReset stopSem t₀) with
      | mk t' thrown =>
          rw [hs] at hcfg' hlogs₂
          cases thrown with
          | none =>
              refine ⟨⟨t', rfl, rfl, by rw [hcfg', hcfg], ⟨ls₁ ++ ls₂, ?_⟩⟩,
                hrs, hru, hre, ?_⟩
              · rw [hlogs₂, hlogs₁, List.append_assoc]
              · intro hreg t'' e hstart'
                rw [← hpn] at hstart'
                rw [hs] at hstart'
                cases hstart'
          | some e =>
              dsimp only at hcfg' hlogs₂
              refine ⟨⟨_, rfl, rfl, by simpa using (hcfg'.trans hcfg),
                ⟨ls₁ ++ ls₂, by
                  show t'.logs = t₀.logs ++ (ls₁ ++ ls₂)
                  rw [hlogs₂, hlogs₁, List.append_assoc]⟩⟩,
                hrs, hru, hre, ?_⟩
              intro hreg t'' e' hstart'
              rw [← hpn] at hstart'
              rw [hs] at hstart'
              cases hstart'
              rfl

/-- Witness for C8 at a concrete input: one known tunnel, a stop behaving
like the cloudflare provider's, and a start that succeeds. -/
theorem restart_frame_witness :
    ∃ t', (restartE demoStartSemOk demoStopSem demoState "t-0-aaaaa").2 = some t' ∧
      (restartE demoStartSemOk demoStopSem demoState "t-0-aaaaa").1 =
        mapSet demoState "t-0-aaaaa" t' ∧
      t'.config = demoStarting.config ∧
      (∃ ls, t'.logs = demoStarting.logs ++ ls) :=
  (restart_frame demoStartSemOk demoStopSem demoState "t-0-aaaaa" demoStarting
    (by rfl)
    (fun pname t => ⟨rfl, ⟨["Stopping tunnel...", "Tunnel stopped"],
      by simp [demoStopSem, cloudflareStop]⟩⟩)
    (fun pname t => ⟨rfl, ⟨["URL: https://demo.trycloudflare.com"], rfl⟩⟩)).1

theorem ltSegment_success (url : String) (events : List LtEvent) (t : TunnelInstance) :
    ltSegment (StartOutcome.success url) events t =
      events.foldl applyLtEvent (ltStart (StartOutcome.success url) t).1 := rfl

theorem ltSegment_failure (msg : String) (events : List LtEvent) (t : TunnelInstance) :
    ltSegment (StartOutcome.failure msg) events t =
      { (ltStart (StartOutcome.failure msg) t).1 with
          status := TunnelStatus.error, error := some msg } := rfl

theorem statusRank_le_two (s : TunnelStatus) : statusRank s ≤ 2 := by
  cases s <;> simp [statusRank]

theorem statusRank_eq_zero_iff (s : TunnelStatus) :
    statusRank s = 0 ↔ s = TunnelStatus.starting := by
  cases s <;> simp [statusRank]

theorem applyLtEvent_mono (t : TunnelInstance) (e : LtEvent) :
    statusRank t.status ≤ statusRank (applyLtEvent t e).status := by
  cases e with
  | serverClose =>
      unfold applyLtEvent ltCloseHandler
      by_cases h : t.status = TunnelStatus.live
      · simp [h, statusRank]
      · simp [h]
  | serverError msg =>
      unfold applyLtEvent ltErrorHandler
      exact statusRank_le_two _

theorem foldl_applyLtEvent_mono (l : List LtEvent) (t : TunnelInstance) :
    statusRank t.status ≤ statusRank (l.foldl applyLtEvent t).status := by
  induction l generalizing t with
  | nil => exact Nat.le_refl _
  | cons e rest ih =>
      exact Nat.le_trans (applyLtEvent_mono t e) (ih (applyLtEvent t e))

theorem foldl_applyLtEvent_closed (l : List LtEvent) (t : TunnelInstance)
    (ht : t.status ≠ TunnelStatus.closed) (hmem : LtEvent.serverClose ∉ l) :
    (l.foldl applyLtEvent t).status ≠ TunnelStatus.closed := by
  induction l generalizing t with
  | nil => exact ht
  | cons e rest ih =>
      cases e with
      | serverClose => exact absurd (List.mem_cons_self _ _) hmem
      | serverError msg =>
          refine ih (applyLtEvent t (LtEvent.serverError msg)) ?_
            (fun hc => hmem (List.mem_cons_of_mem _ hc))
          unfold applyLtEvent ltErrorHandler
          simp

/-- C4 (counterexample): a localtunnel instance whose `start` succeeded
(status `live`) moves to `closed` when the server fires the `close` event —
with no stop call anywhere in the segment — refuting "never reaches
`closed` without an explicit stop call". -/
theorem lt_close_without_stop_cex :
    (ltSegment (StartOutcome.success "https://demo.loca.lt") [] demoStarting).status =
      TunnelStatus.live ∧
    (ltSegment (StartOutcome.success "https://demo.loca.lt") [LtEvent.serverClose]
      demoStarting).status = TunnelStatus.closed :=
  ⟨rfl, rfl⟩

/-- C4 (amended): within a lifecycle segment (no stop/restart), status
never returns to `starting`, ranks (`starting` before `live` before the
terminal statuses) are monotone along the segment, and `closed` is reached
only when the localtunnel server-close event fired — the provider's
`lt.on("close")` handler is the one way a segment reaches `closed` without
an explicit stop. -/
theorem lt_segment_monotonic (outcome : StartOutcome) (events : List LtEvent)
    (t : TunnelInstance) (h : t.status = TunnelStatus.starting) :
    (ltSegment outcome events t).status ≠ TunnelStatus.starting ∧
    ((ltSegment outcome events t).status = TunnelStatus.closed →
      LtEvent.serverClose ∈ events) ∧
    (∀ j k, j ≤ k →
      statusRank (ltSegment outcome (events.take j) t).status ≤
        statusRank (ltSegment outcome (events.take k) t).status) ∧
    statusRank t.status ≤ statusRank (ltSegment outcome events t).status := by
  cases outcome with
  | failure msg =>
      refine ⟨?_, ?_, ?_, ?_⟩
      · rw [ltSegment_failure]
        simp
      · rw [ltSegment_failure]
        intro hc
        simp at hc
      · intro j k _
        rw [ltSegment_failure, ltSegment_failure]
      · rw [h]
        exact Nat.zero_le _
  | success url =>
      have hlive : (ltStart (StartOutcome.success url) t).1.status = TunnelStatus.live := rfl
      refine ⟨?_, ?_, ?_, ?_⟩
      · rw [ltSegment_success]
        intro heq
        have hm := foldl_applyLtEvent_mono events (ltStart (StartOutcome.success url) t).1
        rw [hlive, heq] at hm
        simp [statusRank] at hm
      · rw [ltSegment_success]
        intro hc
        by_contra hmem
        exact foldl_applyLtEvent_closed events _ (by rw [hlive]; simp) hmem hc
      · intro j k hjk
        rw [ltSegment_success, ltSegment_success]
        have h1 : events.take j = (events.take k).take j := by
          rw [List.take_take, Nat.min_eq_left hjk]
        rw [h1]
        calc statusRank (((events.take k).take j).foldl applyLtEvent
                (ltStart (StartOutcome.success url) t).1).status
            ≤ statusRank ((((events.take k).drop j).foldl applyLtEvent
                (((events.take k).take j).foldl applyLtEvent
                  (ltStart (StartOutcome.success url) t).1))).status :=
              foldl_applyLtEvent_mono _ _
          _ = statusRank ((events.take k).foldl applyLtEvent
                (ltStart (StartOutcome.success url) t).1).status := by
              rw [← List.foldl_append, List.take_append_drop]
      · rw [h]
        exact Nat.zero_le _

/-- Witness for the amended C4 at a concrete input. -/
theorem lt_segment_monotonic_witness :
    (ltSegment (StartOutcome.success "https://demo.loca.lt")
      [LtEvent.serverError "boom"] demoStarting).status ≠ TunnelStatus.starting ∧
    statusRank demoStarting.status ≤
      statusRank (ltSegment (StartOutcome.success "https://demo.loca.lt")
        [LtEvent.serverError "boom"] demoStarting).status :=
  ⟨(lt_segment_monotonic (StartOutcome.success "https://demo.loca.lt")
      [LtEvent.serverError "boom"] demoStarting rfl).1,
   (lt_segment_monotonic (StartOutcome.success "https://demo.loca.lt")
      [LtEvent.serverError "boom"] demoStarting rfl).2.2.2⟩

theorem strData_append (s t : String) : (s ++ t).data = s.data ++ t.data := by
  cases s
  cases t
  rfl

theorem strExt {s t : String} (h : s.data = t.data) : s = t := by
  cases s
  cases t
  exact congrArg String.mk h

theorem base36Digit_inj_lt :
    ∀ d₁ < 36, ∀ d₂ < 36, base36Digit d₁ = base36Digit d₂ → d₁ = d₂ := by decide

theorem base36Digit_ne_dash : ∀ d < 36, base36Digit d ≠ '-' := by decide

theorem base36Digit_eq_zeroChar : ∀ d < 36, base36Digit d = '0' → d = 0 := by decide

theorem natToBase36_data_ne_dash (n : Nat) : ∀ c ∈ (natToBase36 n).data, c ≠ '-' := by
  unfold natToBase36
  by_cases h : n = 0
  · rw [if_pos h]
    intro c hc
    simp only [show ("0").data = ['0'] from rfl, List.mem_singleton] at hc
    rw [hc]
    decide
  · rw [if_neg h]
    intro c hc
    rw [show (String.mk (((Nat.digits 36 n).map base36Digit).reverse)).data =
      ((Nat.digits 36 n).map base36Digit).reverse from rfl, List.mem_reverse] at hc
    obtain ⟨d, hd, rfl⟩ := List.mem_map.mp hc
    exact base36Digit_ne_dash d (Nat.digits_lt_base (by norm_num) hd)

theorem map_base36_inj_of_lt :
    ∀ (l₁ l₂ : List Nat), (∀ d ∈ l₁, d < 36) → (∀ d ∈ l₂, d < 36) →
      l₁.map base36Digit = l₂.map base36Digit → l₁ = l₂ := by
  intro l₁
  induction l₁ with
  | nil =>
      intro l₂ _ _ h
      cases l₂ with
      | nil => rfl
      | cons d l => simp at h
  | cons d l ih =>
      intro l₂ h₁ h₂ h
      cases l₂ with
      | nil => simp at h
      | cons d' l' =>
          simp only [List.map_cons, List.cons.injEq] at h
          have hd := base36Digit_inj_lt d (h₁ d (List.mem_cons_self _ _))
            d' (h₂ d' (List.mem_cons_self _ _)) h.1
          have hl := ih l' (fun x hx => h₁ x (List.mem_cons_of_mem _ hx))
            (fun x hx => h₂ x (List.mem_cons_of_mem _ hx)) h.2
          rw [hd, hl]

theorem natToBase36_aux_ne_zero {n : Nat} (hn : n ≠ 0) :
    ((Nat.digits 36 n).map base36Digit).reverse ≠ ['0'] := by
  intro hrev
  have hmap : (Nat.digits 36 n).map base36Digit = ['0'] := by
    have := congrArg List.reverse hrev
    simpa using this
  cases hdig : Nat.digits 36 n with
  | nil => rw [hdig] at hmap; simp at hmap
  | cons d l =>
      rw [hdig] at hmap
      simp only [List.map_cons, List.cons.injEq] at hmap
      obtain ⟨hd0, hl⟩ := hmap
      have hlnil : l = [] := by
        cases l with
        | nil => rfl
        | cons x xs => simp at hl
      have hdlt : d < 36 := Nat.digits_lt_base (by norm_num)
        (by rw [hdig]; exact List.mem_cons_self _ _)
      have hd' : d = 0 := base36Digit_eq_zeroChar d hdlt hd0
      have hzero : n = 0 := by
        have hof := Nat.ofDigits_digits 36 n
        rw [hdig, hlnil, hd'] at hof
        simpa [Nat.ofDigits] using hof.symm
      exact hn hzero

theorem natToBase36_inj {m n : Nat} (h : natToBase36 m = natToBase36 n) : m = n := by
  have hd := congrArg String.data h
  unfold natToBase36 at hd
  by_cases hm : m = 0 <;> by_cases hn : n = 0
  · rw [hm, hn]
  · rw [if_pos hm, if_neg hn] at hd
    exact absurd
      (show ((Nat.digits 36 n).map base36Digit).reverse = ['0'] from hd.symm)
      (natToBase36_aux_ne_zero hn)
  · rw [if_neg hm, if_pos hn] at hd
    exact absurd
      (show ((Nat.digits 36 m).map base36Digit).reverse = ['0'] from hd)
      (natToBase36_aux_ne_zero hm)
  · rw [if_neg hm, if_neg hn] at hd
    have hrev : ((Nat.digits 36 m).map base36Digit).reverse =
        ((Nat.digits 36 n).map base36Digit).reverse := hd
    have hmap := List.reverse_injective hrev
    have hdig := map_base36_inj_of_lt _ _
      (fun d hdm => Nat.digits_lt_base (by norm_num) hdm)
      (fun d hdn => Nat.digits_lt_base (by norm_num) hdn) hmap
    calc m = Nat.ofDigits 36 (Nat.digits 36 m) := (Nat.ofDigits_digits 36 m).symm
      _ = Nat.ofDigits 36 (Nat.digits 36 n) := by rw [hdig]
      _ = n := Nat.ofDigits_digits 36 n

theorem sepSplit :
    ∀ (a₁ : List Char) {a₂ c₁ c₂ : List Char},
      (∀ c ∈ a₁, c ≠ '-') → (∀ c ∈ a₂, c ≠ '-') →
      a₁ ++ '-' :: c₁ = a₂ ++ '-' :: c₂ → a₁ = a₂ ∧ c₁ = c₂ := by
  intro a₁
  induction a₁ with
  | nil =>
      intro a₂ c₁ c₂ _ h₂ h
      cases a₂ with
      | nil => simpa using h
      | cons b bs =>
          simp only [List.nil_append, List.cons_append, List.cons.injEq] at h
          exact absurd h.1.symm (h₂ b (List.mem_cons_self _ _))
  | cons a as ih =>
      intro a₂ c₁ c₂ h₁ h₂ h
      cases a₂ with
      | nil =>
          simp only [List.cons_append, List.nil_append, List.cons.injEq] at h
          exact absurd h.1 (h₁ a (List.mem_cons_self _ _))
      | cons b bs =>
          simp only [List.cons_append, List.cons.injEq] at h
          obtain ⟨hab, htail⟩ := h
          obtain ⟨hA, hC⟩ := ih (fun c hc => h₁ c (List.mem_cons_of_mem _ hc))
            (fun c hc => h₂ c (List.mem_cons_of_mem _ hc)) htail
          exact ⟨by rw [hab, hA], hC⟩

theorem generateId_inj {n₁ n₂ : Nat} {r₁ r₂ : String}
    (h : generateId n₁ r₁ = generateId n₂ r₂) : n₁ = n₂ ∧ r₁ = r₂ := by
  unfold generateId at h
  have hd := congrArg String.data h
  simp only [strData_append, show ("t-").data = ['t', '-'] from rfl,
    show ("-").data = ['-'] from rfl, List.append_assoc, List.cons_append,
    List.nil_append, List.cons.injEq, true_and] at hd
  obtain ⟨hb, hr⟩ := sepSplit _ (natToBase36_data_ne_dash n₁) (natToBase36_data_ne_dash n₂) hd
  exact ⟨natToBase36_inj (strExt hb), strExt hr⟩

/-- C9 (counterexample): two consecutive `create()` calls that land in the
same millisecond (`Date.now() = 0`) and draw the same random suffix `"zz"`
both return instances with id `"t-0-zz"` — the ids of a sequence of
create calls are not always pairwise distinct. -/
theorem generateId_collision_cex :
    (exceptOk? c9first).isSome = true ∧
    (exceptOk? c9second).isSome = true ∧
    (exceptOk? c9first).map (fun r => r.2.config.id) = some "t-0-zz" ∧
    (exceptOk? c9second).map (fun r => r.2.config.id) = some "t-0-zz" :=
  ⟨rfl, rfl, rfl, rfl⟩

/-- C9 (amended): the ids of a sequence of `create()` calls are pairwise
distinct provided each call draws a distinct (timestamp, random-suffix)
pair — `generateId` is injective in that pair, since the base-36 timestamp
text contains no `-` and therefore pins the separator; a repeated pair
collides. -/
theorem generateId_pairwise_distinct (pairs : List (Nat × String))
    (hdist : pairs.Pairwise (fun p q => p ≠ q)) :
    (pairs.map (fun p => generateId p.1 p.2)).Pairwise (fun a b => a ≠ b) := by
  rw [List.pairwise_map]
  refine hdist.imp_of_mem ?_
  intro p q hp hq hne heq
  obtain ⟨hn, hr⟩ := generateId_inj heq
  exact hne (Prod.ext hn hr)

/-- Witness for the amended C9 at concrete inputs: three create calls with
pairwise distinct (timestamp, suffix) pairs. -/
theorem generateId_pairwise_distinct_witness :
    (([((0 : Nat), "aa"), (0, "ab"), (1, "aa")]).map
      (fun p => generateId p.1 p.2)).Pairwise (fun a b => a ≠ b) :=
  generateId_pairwise_distinct [((0 : Nat), "aa"), (0, "ab"), (1, "aa")]
    (by decide)

theorem strApp_assoc (a b c : String) : (a ++ b) ++ c = a ++ (b ++ c) :=
  strExt (by simp [strData_append])

theorem strApp_empty (s : String) : s ++ "" = s :=
  strExt (by simp [strData_append, show ("").data = [] from rfl])

theorem strEmpty_app (s : String) : "" ++ s = s :=
  strExt (by simp [strData_append, show ("").data = [] from rfl])

theorem scanLoop_timer_not_pending (patterns : List Pat) (timeoutMs : Nat) :
    ∀ (events : List StreamEvent) (buffer : String),
      (scanLoop patterns timeoutMs events buffer).timer ≠ TimerState.pending := by
  intro events
  induction events with
  | nil => intro buffer; simp [scanLoop]
  | cons e rest ih =>
      intro buffer
      cases e with
      | eof t =>
          by_cases h : timeoutMs ≤ t <;> simp [scanLoop, h]
      | chunk t s =>
          by_cases h : timeoutMs ≤ t
          · simp [scanLoop, h]
          · simp only [scanLoop]
            rw [if_neg h]
            cases hm : firstMatch patterns (buffer ++ s) with
            | some m => simp
            | none => exact ih (buffer ++ s)

theorem scanLoop_timeout (patterns : List Pat) (timeoutMs : Nat) :
    ∀ (events : List StreamEvent) (buffer : String),
      (∀ k, firstMatch patterns (buffer ++ bufOf (events.take k)) = none) →
      (∀ u, StreamEvent.eof u ∈ events → timeoutMs ≤ u) →
      scanLoop patterns timeoutMs events buffer =
        ⟨ScanOutcome.timedOut timeoutMs, TimerState.fired⟩ := by
  intro events
  induction events with
  | nil => intro buffer _ _; rfl
  | cons e rest ih =>
      intro buffer hnm heof
      cases e with
      | eof u =>
          have hu : timeoutMs ≤ u := heof u (List.mem_cons_self _ _)
          simp [scanLoop, hu]
      | chunk u s =>
          by_cases hu : timeoutMs ≤ u
          · simp [scanLoop, hu]
          · have h1 : firstMatch patterns (buffer ++ s) = none := by
              have h0 := hnm 1
              simp only [List.take_succ_cons, List.take_zero, bufOf] at h0
              rwa [strApp_empty] at h0
            simp only [scanLoop]
            rw [if_neg hu]
            rw [h1]
            refine ih (buffer ++ s) ?_ ?_
            · intro k
              have h0 := hnm (k + 1)
              simp only [List.take_succ_cons, bufOf] at h0
              rwa [← strApp_assoc] at h0
            · exact fun u' hu' => heof u' (List.mem_cons_of_mem _ hu')

theorem scanLoop_eof (patterns : List Pat) (timeoutMs : Nat) :
    ∀ (pre : List StreamEvent) (buffer : String) (t : Nat) (rest : List StreamEvent),
      (∀ e ∈ pre, ∃ u s, e = StreamEvent.chunk u s ∧ u < timeoutMs) →
      (∀ k, firstMatch patterns (buffer ++ bufOf (pre.take k)) = none) →
      t < timeoutMs →
      scanLoop patterns timeoutMs (pre ++ StreamEvent.eof t :: rest) buffer =
        ⟨ScanOutcome.streamEnded t, TimerState.cleared⟩ := by
  intro pre
  induction pre with
  | nil =>
      intro buffer t rest _ _ ht
      simp only [List.nil_append, scanLoop]
      rw [if_neg (Nat.not_le.mpr ht)]
  | cons e pre' ih =>
      intro buffer t rest hpre hnm ht
      obtain ⟨u, s, rfl, hu⟩ := hpre e (List.mem_cons_self _ _)
      have h1 : firstMatch patterns (buffer ++ s) = none := by
        have h0 := hnm 1
        simp only [List.take_succ_cons, List.take_zero, bufOf] at h0
        rwa [strApp_empty] at h0
      simp only [List.cons_append, scanLoop]
      rw [if_neg (Nat.not_le.mpr hu)]
      rw [h1]
      refine ih (buffer ++ s) t rest
        (fun e' he' => hpre e' (List.mem_cons_of_mem _ he')) ?_ ht
      intro k
      have h0 := hnm (k + 1)
      simp only [List.take_succ_cons, bufOf] at h0
      rwa [← strApp_assoc] at h0

theorem scanLoop_found (patterns : List Pat) (timeoutMs : Nat) :
    ∀ (pre : List StreamEvent) (buffer : String) (t : Nat) (s m : String)
      (rest : List StreamEvent),
      (∀ e ∈ pre, ∃ u s', e = StreamEvent.chunk u s' ∧ u < timeoutMs) →
      (∀ k, firstMatch patterns (buffer ++ bufOf (pre.take k)) = none) →
      t < timeoutMs →
      firstMatch patterns (buffer ++ (bufOf pre ++ s)) = some m →
      scanLoop patterns timeoutMs (pre ++ StreamEvent.chunk t s :: rest) buffer =
        ⟨ScanOutcome.found m t, TimerState.cleared⟩ := by
  intro pre
  induction pre with
  | nil =>
      intro buffer t s m rest _ _ ht hm
      rw [bufOf, strEmpty_app] at hm
      simp only [List.nil_append, scanLoop]
      rw [if_neg (Nat.not_le.mpr ht)]
      rw [hm]
  | cons e pre' ih =>
      intro buffer t s m rest hpre hnm ht hm
      obtain ⟨u, s', rfl, hu⟩ := hpre e (List.mem_cons_self _ _)
      have h1 : firstMatch patterns (buffer ++ s') = none := by
        have h0 := hnm 1
        simp only [List.take_succ_cons, List.take_zero, bufOf] at h0
        rwa [strApp_empty] at h0
      simp only [List.cons_append, scanLoop]
      rw [if_neg (Nat.not_le.mpr hu)]
      rw [h1]
      refine ih (buffer ++ s') t s m rest
        (fun e' he' => hpre e' (List.mem_cons_of_mem _ he')) ?_ ht ?_
      · intro k
        have h0 := hnm (k + 1)
        simp only [List.take_succ_cons, bufOf] at h0
        rwa [← strApp_assoc] at h0
      · rw [bufOf] at hm
        rwa [strApp_assoc, ← strApp_assoc] at hm

theorem firstMatch_spec :
    ∀ (patterns : List Pat) (buffer m : String), firstMatch patterns buffer = some m →
      ∃ i, ∃ h : i < patterns.length, (patterns.get ⟨i, h⟩) buffer = some m ∧
        ∀ j (hj : j < i), (patterns.get ⟨j, Nat.lt_trans hj h⟩) buffer = none := by
  intro patterns
  induction patterns with
  | nil => intro buffer m h; simp [firstMatch] at h
  | cons p rest ih =>
      intro buffer m h
      unfold firstMatch at h
      cases hp : p buffer with
      | some m' =>
          rw [hp] at h
          cases h
          exact ⟨0, Nat.succ_pos _, hp, fun j hj => absurd hj (Nat.not_lt_zero j)⟩
      | none =>
          rw [hp] at h
          obtain ⟨i, hi, hmi, hprev⟩ := ih buffer m h
          refine ⟨i + 1, Nat.succ_lt_succ hi, hmi, ?_⟩
          intro j hj
          cases j with
          | zero => exact hp
          | succ j' => exact hprev j' (Nat.lt_of_succ_lt_succ hj)

/-- C5: `waitForUrl` rejects with the timeout error — exactly at
`timeoutMs`, the timer having fired — when no pattern has matched and the
stream has not ended before the timeout; it rejects with the stream-ended
error when EOF arrives before any match and before the timeout; the
timeout timer is never left pending on any terminal outcome; and the
default timeout is 30000 ms. -/
theorem waitForUrl_failure_modes (patterns : List Pat) (timeoutMs t : Nat)
    (events pre rest : List StreamEvent) :
    ((∀ k, firstMatch patterns (bufOf (events.take k)) = none) →
     (∀ u, StreamEvent.eof u ∈ events → timeoutMs ≤ u) →
     waitForUrl patterns timeoutMs events =
       ⟨ScanOutcome.timedOut timeoutMs, TimerState.fired⟩) ∧
    ((∀ e ∈ pre, ∃ u s, e = StreamEvent.chunk u s ∧ u < timeoutMs) →
     (∀ k, firstMatch patterns (bufOf (pre.take k)) = none) →
     t < timeoutMs →
     waitForUrl patterns timeoutMs (pre ++ StreamEvent.eof t :: rest) =
       ⟨ScanOutcome.streamEnded t, TimerState.cleared⟩) ∧
    (waitForUrl patterns timeoutMs events).timer ≠ TimerState.pending ∧
    defaultTimeoutMs = 30000 ∧
    waitForUrlD patterns events = waitForUrl patterns 30000 events := by
  refine ⟨?_, ?_, ?_, rfl, rfl⟩
  · intro hnm heof
    unfold waitForUrl
    refine scanLoop_timeout patterns timeoutMs events "" ?_ heof
    intro k
    rw [strEmpty_app]
    exact hnm k
  · intro hpre hnm ht
    unfold waitForUrl
    refine scanLoop_eof patterns timeoutMs pre "" t rest hpre ?_ ht
    intro k
    rw [strEmpty_app]
    exact hnm k
  · exact scanLoop_timer_not_pending patterns timeoutMs events ""

/-- Witness for C5 at concrete inputs: a silent stream times out at the
default 30000 ms, and an EOF at 5 ms rejects with the stream-ended error. -/
theorem waitForUrl_failure_modes_witness :
    waitForUrl [eqPat "ok"] 30000 [] =
      ⟨ScanOutcome.timedOut 30000, TimerState.fired⟩ ∧
    waitForUrl [eqPat "ok"] 30000 [StreamEvent.eof 5] =
      ⟨ScanOutcome.streamEnded 5, TimerState.cleared⟩ ∧
    (waitForUrl [eqPat "ok"] 30000 []).timer ≠ TimerState.pending ∧
    waitForUrlD [eqPat "ok"] [] = waitForUrl [eqPat "ok"] 30000 [] := by
  have h := waitForUrl_failure_modes [eqPat "ok"] 30000 5 [] [] []
  refine ⟨h.1 (fun k => by cases k <;> rfl) (fun u hu => absurd hu (List.not_mem_nil _)),
    ?_, h.2.2.1, h.2.2.2.2⟩
  exact h.2.1 (fun e he => absurd he (List.not_mem_nil e))
    (fun k => by cases k <;> rfl) (by norm_num)

/-- C6: when a chunk arriving before the timeout makes the accumulated
buffer match for the first time, `waitForUrl` resolves with the matched
substring of the first pattern in list order that matches that buffer
(characterised by the least matching index), and the result of the scan is
deterministic for a fixed event sequence. -/
theorem waitForUrl_first_match (patterns : List Pat) (timeoutMs t : Nat)
    (pre rest : List StreamEvent) (s m : String)
    (hpre : ∀ e ∈ pre, ∃ u s', e = StreamEvent.chunk u s' ∧ u < timeoutMs)
    (hnm : ∀ k, firstMatch patterns (bufOf (pre.take k)) = none)
    (ht : t < timeoutMs)
    (hm : firstMatch patterns (bufOf pre ++ s) = some m) :
    waitForUrl patterns timeoutMs (pre ++ StreamEvent.chunk t s :: rest) =
      ⟨ScanOutcome.found m t, TimerState.cleared⟩ ∧
    (∃ i, ∃ h : i < patterns.length,
      (patterns.get ⟨i, h⟩) (bufOf pre ++ s) = some m ∧
      ∀ j (hj : j < i), (patterns.get ⟨j, Nat.lt_trans hj h⟩) (bufOf pre ++ s) = none) ∧
    (∀ r₁ r₂ : ScanResult,
      r₁ = waitForUrl patterns timeoutMs (pre ++ StreamEvent.chunk t s :: rest) →
      r₂ = waitForUrl patterns timeoutMs (pre ++ StreamEvent.chunk t s :: rest) →
      r₁ = r₂) := by
  refine ⟨?_, firstMatch_spec patterns _ m hm, ?_⟩
  · unfold waitForUrl
    refine scanLoop_found patterns timeoutMs pre "" t s m rest hpre ?_ ht ?_
    · intro k
      rw [strEmpty_app]
      exact hnm k
    · rw [strEmpty_app]
      exact hm
  · intro r₁ r₂ h₁ h₂
    rw [h₁, h₂]

/-- Witness for C6 at concrete inputs: a single chunk `"hi"` at 3 ms
resolves with the first (index 0) pattern's match. -/
theorem waitForUrl_first_match_witness :
    waitForUrl [eqPat "hi"] 30000 [StreamEvent.chunk 3 "hi"] =
      ⟨ScanOutcome.found "hi" 3, TimerState.cleared⟩ ∧
    (∃ i, ∃ h : i < ([eqPat "hi"]).length,
      (([eqPat "hi"]).get ⟨i, h⟩) (bufOf [] ++ "hi") = some "hi" ∧
      ∀ j (hj : j < i),
        (([eqPat "hi"]).get ⟨j, Nat.lt_trans hj h⟩) (bufOf [] ++ "hi") = none) := by
  have h := waitForUrl_first_match [eqPat "hi"] 30000 3 [] [] "hi" "hi"
    (fun e he => absurd he (List.not_mem_nil e)) (fun k => by cases k <;> rfl)
    (by norm_num) rfl
  exact ⟨h.1, h.2.1⟩

end HTunnel
